import Mathlib

/-!
Verification of the `SplineRegressor` adapter (`spline_wrapper.py`).

Shallow embedding conventions:
* Finite floating-point values are modelled by `ℚ` (the code groups x-values by
  exact floating-point equality, which `ℚ`'s decidable equality models); a NaN
  x-value is modelled by `none` in `Option ℚ`.
* `promediar_duplicados` is the embedding of the static method of the same name,
  whose body is `pd.DataFrame({"X": X, "y": y}).groupby("X", as_index=False).mean()`.
  The pandas semantics embedded here: `DataFrame` construction raises when the two
  columns have different lengths (modelled by returning `none`); `groupby("X")`
  drops rows whose key is NaN, sorts the distinct keys ascending, and `.mean()`
  averages the `y` column of each group.
* The external numeric routine `scipy.interpolate.UnivariateSpline` is not part of
  this repository; its construction-time rejection behaviour is modelled from the
  spec (see `univariateSpline`), and its evaluation behaviour is kept abstract by
  quantifying over an arbitrary evaluation function in the theorems about `predict`.
* Python exceptions are modelled explicitly: `fit` returns the post-call instance
  state together with an optional error (`FitOutcome`), because an exception thrown
  by the right-hand side of `self.model = UnivariateSpline(...)` leaves `self.model`
  unassigned; `predict` returns `Except String (List ℚ)`.
-/

/-- Sorted insertion of a key into a strictly sorted list of distinct keys,
dropping the key if it is already present.  Folding it over the x-column models
the set of group keys produced by `groupby("X")`: distinct keys, ascending. -/
def sortedInsert (q : ℚ) : List ℚ → List ℚ
  | [] => [q]
  | a :: t => if q < a then q :: a :: t else if q = a then a :: t else a :: sortedInsert q t

/-- The sorted list of distinct keys of a column, as produced by `groupby`. -/
def sortedKeys (l : List ℚ) : List ℚ := l.foldr sortedInsert []

/-- A `(x, y)` row survives grouping only when its key `x` is not NaN
(`groupby` drops NaN keys). -/
def nanOf : Option ℚ × ℚ → Option (ℚ × ℚ)
  | (some q, v) => some (q, v)
  | (none, _) => none

/-- The rows of the data frame that take part in grouping: the two columns
zipped, with NaN-keyed rows dropped. -/
def groupRows (X : List (Option ℚ)) (y : List ℚ) : List (ℚ × ℚ) :=
  (X.zip y).filterMap nanOf

/-- The `y` values of the group of key `k`. -/
def groupYs (ps : List (ℚ × ℚ)) (k : ℚ) : List ℚ :=
  (ps.filter (fun p => decide (p.1 = k))).map Prod.snd

/-- The group mean of the `y` values of key `k` (what `.mean()` computes). -/
def groupMean (ps : List (ℚ × ℚ)) (k : ℚ) : ℚ :=
  (groupYs ps k).sum / (groupYs ps k).length

/-- Embedding of the static method `SplineRegressor.promediar_duplicados`
(`spline_wrapper.py`, lines 76-94).  `none` models the `ValueError` that
`pd.DataFrame` raises when the columns have different lengths; otherwise the
result is the pair (sorted distinct non-NaN keys, group means of `y`). -/
def promediar_duplicados (X : List (Option ℚ)) (y : List ℚ) :
    Option (List ℚ × List ℚ) :=
  if X.length = y.length then
    some (sortedKeys ((groupRows X y).map Prod.fst),
      (sortedKeys ((groupRows X y).map Prod.fst)).map (groupMean (groupRows X y)))
  else none

/-- The fitted spline state: `UnivariateSpline(X, y, s=s, k=k)` keeps the data it
was built from and the hyperparameters.  Its evaluation behaviour is external to
the repository and is quantified over in the theorems. -/
structure SplineFit where
  xs : List ℚ
  ys : List ℚ
  s : ℚ
  k : ℤ
deriving DecidableEq

/-- Modelled from the spec: the constructor of the external numeric routine
`scipy.interpolate.UnivariateSpline` is not part of this repository.  Per the
spec (§4.1 fit, §7 FitError) it rejects the input exactly when the degree is
outside `[1, 5]`, the smoothing factor is negative, or the data has fewer than
`degree + 1` points; otherwise it constructs the fitted state from the data and
the hyperparameters. -/
def univariateSpline (xs ys : List ℚ) (s : ℚ) (k : ℤ) : Except String SplineFit :=
  if k < 1 ∨ 5 < k then .error "k should be 1 <= k <= 5"
  else if s < 0 then .error "s should be non-negative"
  else if (xs.length : ℤ) < k + 1 then .error "x and y should have at least k+1 elements"
  else .ok ⟨xs, ys, s, k⟩

/-- Embedding of the instance state of `SplineRegressor`: the two hyperparameters
and the `model` field (`None` until a successful fit). -/
structure SplineRegressor where
  s : ℚ
  k : ℤ
  model : Option SplineFit
deriving DecidableEq

/-- Embedding of `SplineRegressor.__init__` (lines 37-40): stores the
hyperparameters and sets `model = None`, with no validation. -/
def SplineRegressor.init (s : ℚ) (k : ℤ) : SplineRegressor := ⟨s, k, none⟩

/-- Outcome of a call to `fit`: the instance state after the call, and the error
raised (if any).  An exception raised before the assignment to `self.model`
leaves the state as it was. -/
structure FitOutcome where
  state : SplineRegressor
  err : Option String
deriving DecidableEq

/-- Embedding of `SplineRegressor.fit` (lines 42-57): deduplicate, then
`self.model = UnivariateSpline(X, y, s=self.s, k=self.k)`.  If either step
raises, the exception propagates and `self.model` keeps its previous value;
only on success is the new fitted state assigned. -/
def SplineRegressor.fit (r : SplineRegressor) (X : List (Option ℚ)) (y : List ℚ) :
    FitOutcome :=
  match promediar_duplicados X y with
  | none => ⟨r, some "All arrays must be of the same length"⟩
  | some (xu, ya) =>
    match univariateSpline xu ya r.s r.k with
    | .error e => ⟨r, some e⟩
    | .ok m => ⟨{ r with model := some m }, none⟩

/-- Embedding of `SplineRegressor.predict` (lines 59-74), parametric in the
evaluation semantics `f` of the external fitted spline: if `self.model` is not
`None` it evaluates the model at each query point, otherwise it raises
`ValueError("This model is not fitted yet.")`. -/
def SplineRegressor.predict (f : SplineFit → ℚ → ℚ) (r : SplineRegressor)
    (X : List ℚ) : Except String (List ℚ) :=
  match r.model with
  | some m => .ok (X.map (f m))
  | none => .error "This model is not fitted yet."

/-- The indices of the entries of `X` equal to `k` (spec-side description of a
group, by position). -/
def matchIdx (X : List ℚ) (k : ℚ) : List ℕ :=
  (List.range X.length).filter (fun j => decide (X.getD j 0 = k))

/-- Spec-side arithmetic mean of all `y[j]` with `X[j] = k`, written directly
from the spec's words via index sets (to be compared with `groupMean`, which is
the code-side grouping over zipped rows). -/
def specMean (X y : List ℚ) (k : ℚ) : ℚ :=
  ((matchIdx X k).map (fun j => y.getD j 0)).sum / (matchIdx X k).length

theorem mem_sortedInsert (q x : ℚ) (l : List ℚ) :
    x ∈ sortedInsert q l ↔ x = q ∨ x ∈ l := by
  induction l with
  | nil => simp [sortedInsert]
  | cons a t ih =>
    by_cases h1 : q < a
    · simp [sortedInsert, h1]
    · by_cases h2 : q = a
      · subst h2
        have he : sortedInsert q (q :: t) = q :: t := by
          simp [sortedInsert, h1]
        rw [he, List.mem_cons]
        tauto
      · simp only [sortedInsert, if_neg h1, if_neg h2, List.mem_cons, ih]
        tauto

theorem sorted_sortedInsert (q : ℚ) (l : List ℚ) (h : l.Sorted (· < ·)) :
    (sortedInsert q l).Sorted (· < ·) := by
  induction l with
  | nil => simp [sortedInsert]
  | cons a t ih =>
    rcases List.sorted_cons.mp h with ⟨ha, ht⟩
    by_cases h1 : q < a
    · simp only [sortedInsert, if_pos h1]
      refine List.sorted_cons.mpr ⟨?_, h⟩
      intro b hb
      rcases List.mem_cons.mp hb with rfl | hb
      · exact h1
      · exact h1.trans (ha b hb)
    · by_cases h2 : q = a
      · simpa only [sortedInsert, if_neg h1, if_pos h2] using h
      · have h3 : a < q := lt_of_le_of_ne (not_lt.mp h1) (Ne.symm h2)
        simp only [sortedInsert, if_neg h1, if_neg h2]
        refine List.sorted_cons.mpr ⟨?_, ih ht⟩
        intro b hb
        rcases (mem_sortedInsert q b t).mp hb with rfl | hb
        · exact h3
        · exact ha b hb

theorem sortedKeys_cons (a : ℚ) (t : List ℚ) :
    sortedKeys (a :: t) = sortedInsert a (sortedKeys t) := rfl

theorem sorted_sortedKeys (l : List ℚ) : (sortedKeys l).Sorted (· < ·) := by
  induction l with
  | nil => simp [sortedKeys]
  | cons a t ih =>
    rw [sortedKeys_cons]
    exact sorted_sortedInsert a _ ih

theorem mem_sortedKeys (x : ℚ) (l : List ℚ) : x ∈ sortedKeys l ↔ x ∈ l := by
  induction l with
  | nil => simp [sortedKeys]
  | cons a t ih =>
    rw [sortedKeys_cons, mem_sortedInsert, ih, List.mem_cons]

theorem nodup_sortedKeys (l : List ℚ) : (sortedKeys l).Nodup :=
  (sorted_sortedKeys l).imp ne_of_lt

theorem sortedInsert_eq_cons (q : ℚ) (l : List ℚ) (h : ∀ b ∈ l, q < b) :
    sortedInsert q l = q :: l := by
  cases l with
  | nil => rfl
  | cons a t => simp [sortedInsert, h a (List.mem_cons_self a t)]

theorem sortedKeys_eq_self (l : List ℚ) (h : l.Sorted (· < ·)) : sortedKeys l = l := by
  induction l with
  | nil => rfl
  | cons a t ih =>
    rcases List.sorted_cons.mp h with ⟨ha, ht⟩
    rw [sortedKeys_cons, ih ht, sortedInsert_eq_cons a t ha]

theorem groupRows_map_some (X y : List ℚ) :
    groupRows (X.map some) y = X.zip y := by
  induction X generalizing y with
  | nil => simp [groupRows]
  | cons a t ih =>
    cases y with
    | nil => simp [groupRows]
    | cons b u =>
      simpa [groupRows, List.filterMap_cons, nanOf] using ih u

theorem groupYs_cons (x v : ℚ) (ps : List (ℚ × ℚ)) (k : ℚ) :
    groupYs ((x, v) :: ps) k =
      if x = k then v :: groupYs ps k else groupYs ps k := by
  by_cases h : x = k <;> simp [groupYs, List.filter_cons, h]

theorem groupYs_eq_nil (ps : List (ℚ × ℚ)) (k : ℚ) (h : ∀ p ∈ ps, p.1 ≠ k) :
    groupYs ps k = [] := by
  simp only [groupYs, List.map_eq_nil_iff, List.filter_eq_nil_iff, decide_eq_true_eq]
  exact h

theorem groupMean_singleton_key (x v : ℚ) (ps : List (ℚ × ℚ))
    (h : ∀ p ∈ ps, p.1 ≠ x) : groupMean ((x, v) :: ps) x = v := by
  have h1 : groupYs ((x, v) :: ps) x = [v] := by
    rw [groupYs_cons, if_pos rfl, groupYs_eq_nil ps x h]
  simp [groupMean, h1]

theorem groupMean_cons_ne (x v k : ℚ) (ps : List (ℚ × ℚ)) (h : x ≠ k) :
    groupMean ((x, v) :: ps) k = groupMean ps k := by
  rw [groupMean, groupMean, groupYs_cons, if_neg h]

theorem map_groupMean_zip (u a : List ℚ) (hn : u.Nodup) (hl : u.length = a.length) :
    u.map (groupMean (u.zip a)) = a := by
  induction u generalizing a with
  | nil =>
    cases a with
    | nil => rfl
    | cons b a2 => simp at hl
  | cons h u2 ih =>
    cases a with
    | nil => simp at hl
    | cons b a2 =>
      rcases List.nodup_cons.mp hn with ⟨hh, hn2⟩
      have hzip : (h :: u2).zip (b :: a2) = (h, b) :: u2.zip a2 := rfl
      have hne : ∀ p ∈ u2.zip a2, p.1 ≠ h := by
        intro p hp he
        rcases p with ⟨p1, p2⟩
        exact hh (he ▸ (List.of_mem_zip hp).1)
      have hhead : groupMean ((h :: u2).zip (b :: a2)) h = b := by
        rw [hzip]
        exact groupMean_singleton_key h b (u2.zip a2) hne
      have htail : u2.map (groupMean ((h :: u2).zip (b :: a2))) = a2 := by
        rw [hzip]
        have hcongr : ∀ k ∈ u2, groupMean ((h, b) :: u2.zip a2) k =
            groupMean (u2.zip a2) k := by
          intro k hk
          exact groupMean_cons_ne h b k (u2.zip a2) (fun he => hh (he ▸ hk))
        rw [List.map_congr_left hcongr]
        exact ih a2 hn2 (Nat.succ_injective hl)
      simp only [List.map_cons, hhead, htail]

theorem matchIdx_cons (a k : ℚ) (t : List ℚ) :
    matchIdx (a :: t) k =
      if a = k then 0 :: (matchIdx t k).map Nat.succ
      else (matchIdx t k).map Nat.succ := by
  unfold matchIdx
  rw [List.length_cons, List.range_succ_eq_map, List.filter_cons, List.filter_map]
  have hp : (fun j => decide ((a :: t).getD j 0 = k)) ∘ Nat.succ =
      fun j => decide (t.getD j 0 = k) := by
    funext j
    simp
  rw [hp]
  by_cases h : a = k <;> simp [h]

theorem groupYs_zip_eq_matchIdx (X y : List ℚ) (k : ℚ) (hl : X.length = y.length) :
    groupYs (X.zip y) k = (matchIdx X k).map (fun j => y.getD j 0) := by
  induction X generalizing y with
  | nil => simp [groupYs, matchIdx]
  | cons a t ih =>
    cases y with
    | nil => simp at hl
    | cons b u =>
      have hl2 : t.length = u.length := Nat.succ_injective hl
      have hzip : (a :: t).zip (b :: u) = (a, b) :: t.zip u := rfl
      rw [hzip, groupYs_cons, matchIdx_cons, ih u hl2]
      by_cases h : a = k
      · simp [h, List.map_map, Function.comp_def]
      · simp [h, List.map_map, Function.comp_def]

theorem groupMean_zip_eq_specMean (X y : List ℚ) (k : ℚ) (hl : X.length = y.length) :
    groupMean (X.zip y) k = specMean X y k := by
  rw [groupMean, specMean, groupYs_zip_eq_matchIdx X y k hl, List.length_map]

theorem promediar_eq_some (X : List (Option ℚ)) (y : List ℚ) (hl : X.length = y.length) :
    promediar_duplicados X y =
      some (sortedKeys ((groupRows X y).map Prod.fst),
        (sortedKeys ((groupRows X y).map Prod.fst)).map (groupMean (groupRows X y))) := by
  rw [promediar_duplicados, if_pos hl]

theorem promediar_map_some (X y : List ℚ) (hl : X.length = y.length) :
    promediar_duplicados (X.map some) y =
      some (sortedKeys X, (sortedKeys X).map (groupMean (X.zip y))) := by
  have h1 : (X.map some).length = y.length := by simpa using hl
  rw [promediar_eq_some _ _ h1, groupRows_map_some,
    List.map_fst_zip X y (le_of_eq hl)]

/-- C1: for equal-length inputs, `promediar_duplicados` returns `(X_unique, y_avg)`
where `X_unique` is strictly increasing, holds exactly the distinct values of `X`
(grouping by exact equality), `y_avg` has the same length, and `y_avg[i]` is the
arithmetic mean of all `y[j]` with `X[j] = X_unique[i]`. -/
theorem C1_promediar_correct (X y : List ℚ) (hl : X.length = y.length) :
    ∃ u a, promediar_duplicados (X.map some) y = some (u, a) ∧
      u.Sorted (· < ·) ∧ (∀ q, q ∈ u ↔ q ∈ X) ∧ a.length = u.length ∧
      ∀ i (hu : i < u.length) (ha : i < a.length),
        a.get ⟨i, ha⟩ = specMean X y (u.get ⟨i, hu⟩) := by
  refine ⟨sortedKeys X, (sortedKeys X).map (groupMean (X.zip y)),
    promediar_map_some X y hl, sorted_sortedKeys X, fun q => mem_sortedKeys q X,
    by simp, ?_⟩
  intro i hu ha
  have hm : ((sortedKeys X).map (groupMean (X.zip y))).get ⟨i, ha⟩ =
      groupMean (X.zip y) ((sortedKeys X).get ⟨i, hu⟩) := by
    simp [List.get_eq_getElem, List.getElem_map]
  rw [hm, groupMean_zip_eq_specMean X y _ hl]

/-- Witness for C1 at `X = [1, 1, 2]`, `y = [10, 20, 30]`. -/
theorem C1_promediar_correct_witness :
    ∃ u a, promediar_duplicados (([1, 1, 2] : List ℚ).map some) [10, 20, 30] =
        some (u, a) ∧
      u.Sorted (· < ·) ∧ (∀ q, q ∈ u ↔ q ∈ ([1, 1, 2] : List ℚ)) ∧
      a.length = u.length ∧
      ∀ i (hu : i < u.length) (ha : i < a.length),
        a.get ⟨i, ha⟩ = specMean [1, 1, 2] [10, 20, 30] (u.get ⟨i, hu⟩) :=
  C1_promediar_correct [1, 1, 2] [10, 20, 30] rfl

theorem fit_eq_of_promediar_some (r : SplineRegressor) (X : List (Option ℚ))
    (y xu ya : List ℚ) (hP : promediar_duplicados X y = some (xu, ya)) :
    r.fit X y =
      match univariateSpline xu ya r.s r.k with
      | .error e => ⟨r, some e⟩
      | .ok m => ⟨⟨r.s, r.k, some m⟩, none⟩ := by
  unfold SplineRegressor.fit
  rw [hP]

theorem fit_eq_of_promediar_none (r : SplineRegressor) (X : List (Option ℚ))
    (y : List ℚ) (hP : promediar_duplicados X y = none) :
    r.fit X y = ⟨r, some "All arrays must be of the same length"⟩ := by
  unfold SplineRegressor.fit
  rw [hP]

theorem fit_cases (r : SplineRegressor) (X : List (Option ℚ)) (y : List ℚ) :
    (∃ e, r.fit X y = ⟨r, some e⟩) ∨
    (∃ xu ya m, promediar_duplicados X y = some (xu, ya) ∧
      univariateSpline xu ya r.s r.k = .ok m ∧
      r.fit X y = ⟨⟨r.s, r.k, some m⟩, none⟩) := by
  rcases hP : promediar_duplicados X y with _ | ⟨xu, ya⟩
  · exact Or.inl ⟨_, fit_eq_of_promediar_none r X y hP⟩
  · rw [fit_eq_of_promediar_some r X y xu ya hP]
    rcases hU : univariateSpline xu ya r.s r.k with e | m
    · exact Or.inl ⟨e, rfl⟩
    · exact Or.inr ⟨xu, ya, m, rfl, hU, rfl⟩

theorem fit_err_isSome_state (r : SplineRegressor) (X : List (Option ℚ))
    (y : List ℚ) (h : (r.fit X y).err.isSome) : (r.fit X y).state = r := by
  rcases fit_cases r X y with ⟨e, heq⟩ | ⟨xu, ya, m, _, _, heq⟩
  · rw [heq]
  · rw [heq] at h
    simp at h

/-- C3: `fit` is atomic with respect to the fitted state: either it succeeds and
the state holds exactly the spline newly constructed from the deduplicated data
(hyperparameters unchanged), or it fails and the whole pre-call state is
unchanged. -/
theorem C3_fit_atomic (r : SplineRegressor) (X : List (Option ℚ)) (y : List ℚ) :
    (∃ xu ya m, promediar_duplicados X y = some (xu, ya) ∧
        univariateSpline xu ya r.s r.k = .ok m ∧
        r.fit X y = ⟨⟨r.s, r.k, some m⟩, none⟩) ∨
    ((r.fit X y).err.isSome ∧ (r.fit X y).state = r) := by
  rcases fit_cases r X y with ⟨e, heq⟩ | hsucc
  · right
    rw [heq]
    exact ⟨rfl, rfl⟩
  · left
    exact hsucc

/-- C2: `predict` fails with the fixed message `"This model is not fitted yet."`
exactly on instances with no successful fit: a fresh instance is unfitted, a
failed `fit` leaves the state unchanged, an unfitted instance always raises (for
any input, the empty one included), and once `model` is set it never raises this
error again (a successful fit sets it and no `fit` ever clears it). -/
theorem C2_predict_not_fitted :
    (∀ (f : SplineFit → ℚ → ℚ) (r : SplineRegressor) (X : List ℚ),
        r.model = none → r.predict f X = .error "This model is not fitted yet.") ∧
    (∀ (s : ℚ) (k : ℤ), (SplineRegressor.init s k).model = none) ∧
    (∀ (r : SplineRegressor) (X : List (Option ℚ)) (y : List ℚ),
        (r.fit X y).err.isSome → (r.fit X y).state = r) ∧
    (∀ (f : SplineFit → ℚ → ℚ) (r : SplineRegressor) (Xq : List ℚ),
        r.model ≠ none → ∃ out, r.predict f Xq = .ok out) ∧
    (∀ (r : SplineRegressor) (X : List (Option ℚ)) (y : List ℚ),
        (r.fit X y).err = none → (r.fit X y).state.model ≠ none) ∧
    (∀ (r : SplineRegressor) (X : List (Option ℚ)) (y : List ℚ),
        r.model ≠ none → (r.fit X y).state.model ≠ none) := by
  refine ⟨?_, ?_, fit_err_isSome_state, ?_, ?_, ?_⟩
  · intro f r X h
    simp [SplineRegressor.predict, h]
  · intro s k
    rfl
  · intro f r Xq h
    rcases hm : r.model with _ | m
    · exact absurd hm h
    · exact ⟨Xq.map (f m), by simp [SplineRegressor.predict, hm]⟩
  · intro r X y h
    rcases fit_cases r X y with ⟨e, heq⟩ | ⟨xu, ya, m, _, _, heq⟩
    · rw [heq] at h
      simp at h
    · rw [heq]
      simp
  · intro r X y h
    rcases fit_cases r X y with ⟨e, heq⟩ | ⟨xu, ya, m, _, _, heq⟩
    · rw [heq]
      exact h
    · rw [heq]
      simp

/-- Witness for C2: a fresh instance rejects `predict` on the empty input. -/
theorem C2_predict_not_fitted_witness :
    (SplineRegressor.init 0 3).predict (fun _ q => q) [] =
      .error "This model is not fitted yet." :=
  C2_predict_not_fitted.1 (fun _ q => q) (SplineRegressor.init 0 3) [] rfl

/-- C8: on empty input `promediar_duplicados` returns a pair of empty sequences
and raises nothing; its only error condition is the length mismatch. -/
theorem C8_promediar_empty_and_error :
    promediar_duplicados [] [] = some ([], []) ∧
    ∀ (X : List (Option ℚ)) (y : List ℚ),
      promediar_duplicados X y = none ↔ X.length ≠ y.length := by
  refine ⟨rfl, ?_⟩
  intro X y
  constructor
  · intro h hl
    rw [promediar_eq_some X y hl] at h
    exact Option.noConfusion h
  · intro h
    unfold promediar_duplicados
    rw [if_neg h]

theorem univariateSpline_ok_iff (xs ys : List ℚ) (s : ℚ) (k : ℤ) :
    (∃ m, univariateSpline xs ys s k = .ok m) ↔
      ¬(k < 1 ∨ 5 < k) ∧ ¬s < 0 ∧ ¬(xs.length : ℤ) < k + 1 := by
  unfold univariateSpline
  by_cases h1 : k < 1 ∨ 5 < k
  · simp [h1]
  · by_cases h2 : s < 0
    · simp [h1, h2]
    · by_cases h3 : (xs.length : ℤ) < k + 1
      · simp [h1, h2, h3]
      · simp [h1, h2, h3]

theorem fit_err_isSome_iff (r : SplineRegressor) (X : List (Option ℚ))
    (y xu ya : List ℚ) (hP : promediar_duplicados X y = some (xu, ya)) :
    ((r.fit X y).err.isSome ↔ ¬∃ m, univariateSpline xu ya r.s r.k = .ok m) := by
  rw [fit_eq_of_promediar_some r X y xu ya hP]
  rcases hU : univariateSpline xu ya r.s r.k with e | m
  · simp [hU]
  · simp [hU]

/-- C5: with equal-length inputs, `fit` fails exactly when the underlying spline
construction rejects the data or the hyperparameters: degree outside `[1, 5]`,
negative smoothing factor, or fewer than `degree + 1` distinct (deduplicated)
points; `fit` adds no validation of its own. -/
theorem C5_fit_error_iff (r : SplineRegressor) (X : List (Option ℚ)) (y : List ℚ)
    (hl : X.length = y.length) :
    ∃ xu ya, promediar_duplicados X y = some (xu, ya) ∧
      ((r.fit X y).err.isSome ↔
        (r.k < 1 ∨ 5 < r.k) ∨ r.s < 0 ∨ (xu.length : ℤ) < r.k + 1) := by
  refine ⟨_, _, promediar_eq_some X y hl, ?_⟩
  rw [fit_err_isSome_iff r X y _ _ (promediar_eq_some X y hl),
    univariateSpline_ok_iff]
  tauto

/-- Witness for C5: degree 3 with only 2 distinct points makes `fit` fail. -/
theorem C5_fit_error_iff_witness :
    ∃ xu ya, promediar_duplicados [some 1, some 2] [(10 : ℚ), 20] = some (xu, ya) ∧
      (((SplineRegressor.init 0 3).fit [some 1, some 2] [10, 20]).err.isSome ↔
        ((SplineRegressor.init 0 3).k < 1 ∨ 5 < (SplineRegressor.init 0 3).k) ∨
          (SplineRegressor.init 0 3).s < 0 ∨
          (xu.length : ℤ) < (SplineRegressor.init 0 3).k + 1) :=
  C5_fit_error_iff (SplineRegressor.init 0 3) [some 1, some 2] [10, 20] rfl

theorem fit_state_hyper (r : SplineRegressor) (X : List (Option ℚ)) (y : List ℚ) :
    (r.fit X y).state.s = r.s ∧ (r.fit X y).state.k = r.k := by
  rcases fit_cases r X y with ⟨e, heq⟩ | ⟨xu, ya, m, _, _, heq⟩ <;> rw [heq] <;>
    exact ⟨rfl, rfl⟩

theorem fit_congr_hyper (r r2 : SplineRegressor) (hs : r.s = r2.s)
    (hk : r.k = r2.k) (X : List (Option ℚ)) (y : List ℚ) :
    (r.fit X y).err = (r2.fit X y).err ∧
    ((r.fit X y).err = none → (r.fit X y).state = (r2.fit X y).state) := by
  rcases hP : promediar_duplicados X y with _ | ⟨xu, ya⟩
  · rw [fit_eq_of_promediar_none r X y hP, fit_eq_of_promediar_none r2 X y hP]
    exact ⟨rfl, fun h => Option.noConfusion h⟩
  · rw [fit_eq_of_promediar_some r X y xu ya hP,
      fit_eq_of_promediar_some r2 X y xu ya hP, hs, hk]
    rcases hU : univariateSpline xu ya r2.s r2.k with e | m
    · exact ⟨rfl, fun h => Option.noConfusion h⟩
    · exact ⟨rfl, fun _ => rfl⟩

/-- C6: a successful refit fully replaces the model: predictions of the refitted
instance coincide (for every evaluation semantics of the external spline and
every query) with those of a fresh instance with the same hyperparameters fitted
only on the second data set, which also succeeds. -/
theorem C6_refit_replaces (f : SplineFit → ℚ → ℚ) (s : ℚ) (k : ℤ)
    (X1 : List (Option ℚ)) (y1 : List ℚ) (X2 : List (Option ℚ)) (y2 : List ℚ)
    (Xq : List ℚ)
    (h2 : ((((SplineRegressor.init s k).fit X1 y1).state).fit X2 y2).err = none) :
    (((SplineRegressor.init s k).fit X2 y2).err = none) ∧
    ((((SplineRegressor.init s k).fit X1 y1).state).fit X2 y2).state.predict f Xq =
      ((SplineRegressor.init s k).fit X2 y2).state.predict f Xq := by
  have hs : (((SplineRegressor.init s k).fit X1 y1).state).s =
      (SplineRegressor.init s k).s := (fit_state_hyper _ X1 y1).1
  have hk : (((SplineRegressor.init s k).fit X1 y1).state).k =
      (SplineRegressor.init s k).k := (fit_state_hyper _ X1 y1).2
  rcases fit_congr_hyper (((SplineRegressor.init s k).fit X1 y1).state)
    (SplineRegressor.init s k) hs hk X2 y2 with ⟨he, hst⟩
  refine ⟨he ▸ h2, ?_⟩
  rw [hst h2]

/-- C10: construction performs no hyperparameter validation: for every `s` and
`k` it succeeds, stores them, and leaves the instance unfitted; invalid
hyperparameters (degree outside `[1, 5]` or negative smoothing) only cause a
failure once `fit` is called. -/
theorem C10_init_no_validation (s : ℚ) (k : ℤ) :
    (SplineRegressor.init s k).s = s ∧ (SplineRegressor.init s k).k = k ∧
    (SplineRegressor.init s k).model = none ∧
    ∀ (X : List (Option ℚ)) (y : List ℚ), X.length = y.length →
      ((k < 1 ∨ 5 < k) ∨ s < 0) →
      ((SplineRegressor.init s k).fit X y).err.isSome := by
  refine ⟨rfl, rfl, rfl, ?_⟩
  intro X y hl hbad
  rw [fit_err_isSome_iff _ X y _ _ (promediar_eq_some X y hl),
    univariateSpline_ok_iff]
  intro hok
  rcases hbad with hk | hs
  · exact hok.1 hk
  · exact hok.2.1 hs

/-- Witness for C10: degree 7 is accepted at construction and rejected at fit. -/
theorem C10_init_no_validation_witness :
    ((SplineRegressor.init 0 7).fit [some 1] [(1 : ℚ)]).err.isSome :=
  (C10_init_no_validation 0 7).2.2.2 [some 1] [1] rfl
    (Or.inl (Or.inr (by norm_num)))

theorem zip_map_self (l : List ℚ) (g : ℚ → ℚ) :
    l.zip (l.map g) = l.map (fun q => (q, g q)) := by
  induction l with
  | nil => rfl
  | cons a t ih => simp [ih]

theorem promediar_ne_none (X : List (Option ℚ)) (y : List ℚ) (u a : List ℚ)
    (h : promediar_duplicados X y = some (u, a)) : X.length = y.length := by
  by_contra hl
  unfold promediar_duplicados at h
  rw [if_neg hl] at h
  exact Option.noConfusion h

/-- C4: `promediar_duplicados` is idempotent (a second application returns its
own output unchanged), and on input with pairwise-distinct x values it is a pure
sorting permutation of the rows, with no averaging applied. -/
theorem C4_promediar_idempotent :
    (∀ (X : List (Option ℚ)) (y u a : List ℚ),
        promediar_duplicados X y = some (u, a) →
        promediar_duplicados (u.map some) a = some (u, a)) ∧
    (∀ (X y : List ℚ), X.length = y.length → X.Nodup →
        ∃ u a, promediar_duplicados (X.map some) y = some (u, a) ∧
          (u.zip a).Perm (X.zip y)) := by
  constructor
  · intro X y u a heq
    have hl : X.length = y.length := promediar_ne_none X y u a heq
    rw [promediar_eq_some X y hl] at heq
    rcases Prod.mk.injEq .. ▸ Option.some.inj heq with ⟨hu, ha⟩
    have hsort : u.Sorted (· < ·) := hu ▸ sorted_sortedKeys _
    have hnod : u.Nodup := hsort.imp ne_of_lt
    have hlen : u.length = a.length := by
      rw [← hu, ← ha, List.length_map]
    rw [promediar_map_some u a hlen, sortedKeys_eq_self u hsort,
      map_groupMean_zip u a hnod hlen]
  · intro X y hl hnd
    refine ⟨sortedKeys X, (sortedKeys X).map (groupMean (X.zip y)),
      promediar_map_some X y hl, ?_⟩
    have hy : X.map (groupMean (X.zip y)) = y := map_groupMean_zip X y hnd hl
    have h1 := zip_map_self (sortedKeys X) (groupMean (X.zip y))
    have h2 : X.zip y = X.map (fun q => (q, groupMean (X.zip y) q)) := by
      conv_lhs => rw [← hy]
      exact zip_map_self X (groupMean (X.zip y))
    have hperm : (sortedKeys X).Perm X :=
      (List.perm_ext_iff_of_nodup (nodup_sortedKeys X) hnd).mpr
        (fun q => mem_sortedKeys q X)
    rw [h1]
    conv_rhs => rw [h2]
    exact hperm.map _

/-- Witness for C4: the output of deduplicating `X = [1, 1]`, `y = [10, 20]` is a
fixed point of deduplication. -/
theorem C4_promediar_idempotent_witness :
    promediar_duplicados (([1] : List ℚ).map some) [15] = some ([1], [15]) :=
  C4_promediar_idempotent.1 [some 1, some 1] [10, 20] [1] [15]
    (by norm_num [promediar_duplicados, groupRows, List.filterMap_cons, nanOf,
      sortedKeys, sortedInsert, groupMean, groupYs, List.filter_cons])

theorem mem_map_fst_groupRows (X : List (Option ℚ)) (y : List ℚ) (q : ℚ)
    (hl : X.length = y.length) :
    q ∈ (groupRows X y).map Prod.fst ↔ some q ∈ X := by
  induction X generalizing y with
  | nil => simp [groupRows]
  | cons o t ih =>
    cases y with
    | nil => simp at hl
    | cons b u =>
      have hl2 : t.length = u.length := Nat.succ_injective hl
      cases o with
      | some a =>
        have hz : groupRows (some a :: t) (b :: u) = (a, b) :: groupRows t u := rfl
        rw [hz]
        simp [ih u hl2]
      | none =>
        have hz : groupRows (none :: t) (b :: u) = groupRows t u := rfl
        rw [hz]
        simp [ih u hl2]

theorem groupRows_all_none (X : List (Option ℚ)) (y : List ℚ)
    (h : ∀ o ∈ X, o = none) : groupRows X y = [] := by
  induction X generalizing y with
  | nil => simp [groupRows]
  | cons o t ih =>
    cases y with
    | nil => simp [groupRows]
    | cons b u =>
      have ho : o = none := h o (List.mem_cons_self o t)
      subst ho
      have hz : groupRows (none :: t) (b :: u) = groupRows t u := rfl
      rw [hz]
      exact ih u (fun o2 ho2 => h o2 (List.mem_cons_of_mem _ ho2))

/-- C9: rows whose x value is NaN are silently dropped by the grouping: the
output keys are exactly the non-NaN x values of the input, so an input whose x
column is all NaN yields empty outputs rather than an error. -/
theorem C9_nan_rows_dropped :
    (∀ (X : List (Option ℚ)) (y u a : List ℚ),
        promediar_duplicados X y = some (u, a) → ∀ q : ℚ, q ∈ u ↔ some q ∈ X) ∧
    (∀ (X : List (Option ℚ)) (y : List ℚ), X.length = y.length →
        (∀ o ∈ X, o = none) → promediar_duplicados X y = some ([], [])) := by
  constructor
  · intro X y u a heq q
    have hl : X.length = y.length := promediar_ne_none X y u a heq
    rw [promediar_eq_some X y hl] at heq
    rcases Prod.mk.injEq .. ▸ Option.some.inj heq with ⟨hu, _⟩
    rw [← hu, mem_sortedKeys, mem_map_fst_groupRows X y q hl]
  · intro X y hl hall
    rw [promediar_eq_some X y hl, groupRows_all_none X y hall]
    rfl

/-- Witness for C9: an all-NaN x column yields empty outputs. -/
theorem C9_nan_rows_dropped_witness :
    promediar_duplicados [none, none] [(1 : ℚ), 2] = some ([], []) :=
  C9_nan_rows_dropped.2 [none, none] [1, 2] rfl (by decide)

/-- Witness for C6: a degree-1 fit on `([1, 2], [0, 0])` refitted on
`([1, 3], [5, 7])` predicts like a fresh fit on the second data set. -/
theorem C6_refit_replaces_witness :
    (((SplineRegressor.init 0 1).fit [some 1, some 3] [(5 : ℚ), 7]).err = none) ∧
    ((((SplineRegressor.init 0 1).fit [some 1, some 2] [(0 : ℚ), 0]).state).fit
        [some 1, some 3] [(5 : ℚ), 7]).state.predict (fun _ q => q) [2] =
      ((SplineRegressor.init 0 1).fit [some 1, some 3] [(5 : ℚ), 7]).state.predict
        (fun _ q => q) [2] :=
  C6_refit_replaces (fun _ q => q) 0 1 [some 1, some 2] [0, 0] [some 1, some 3]
    [5, 7] [2]
    (by norm_num [SplineRegressor.init, SplineRegressor.fit, promediar_duplicados,
      groupRows, List.filterMap_cons, nanOf, sortedKeys, sortedInsert, groupMean,
      groupYs, List.filter_cons, univariateSpline])
